import Mathlib

/-!
Verification of the subnet-utils library: a CIDR parser, a containment
engine, and four query facade functions (`addr_in_subnet`,
`addr_in_any_subnet`, `addr_in_all_subnets`, `any_addr_in_any_subnet`).
Addresses and subnet bases are modelled as natural numbers below the
family bit width (32 or 128); machine bitwise AND on unsigned words is
Nat.land (`&&&`), which agrees with the machine operation because all
operands stay below 2^width.
-/

/-- Modelled from the spec: the single externally visible error kind,
"parse failure", carrying the original malformed text and a reason token. -/
structure ParseError where
  text : String
  reason : String
deriving DecidableEq

/-- An IP address: a fixed-width unsigned integer tagged with a family
(32-bit V4 or 128-bit V6), mirroring `std::net::IpAddr`. -/
inductive IpAddr where
  | V4 : Nat → IpAddr
  | V6 : Nat → IpAddr
deriving DecidableEq

def IpAddr.is_ipv4 : IpAddr → Bool
  | .V4 _ => true
  | .V6 _ => false

def IpAddr.is_ipv6 : IpAddr → Bool
  | .V4 _ => false
  | .V6 _ => true

/-- Modelled from the spec: a subnet is a tagged union over the two
families, each variant holding a base address and a prefix length
(the `netaddr2::NetAddr` type, which is not among the sources of this repository). -/
inductive NetAddr where
  | V4 : Nat → Nat → NetAddr
  | V6 : Nat → Nat → NetAddr
deriving DecidableEq

/-- Modelled from the spec: the netmask with the top `plen` bits set and
zeros elsewhere, at bit width `w`. -/
def maskBits (w plen : Nat) : Nat := 2 ^ w - 2 ^ (w - plen)

/-- Modelled from the spec: the 32-bit containment engine
(`netaddr2::Contains` for `Netv4Addr`, not among the sources of this repository): mask both the subnet base and the candidate with the netmask
and compare. A candidate of the other family is not contained. -/
def netv4Contains (base plen : Nat) : IpAddr → Bool
  | .V4 a => (base &&& maskBits 32 plen) == (a &&& maskBits 32 plen)
  | .V6 _ => false

/-- Modelled from the spec: the 128-bit containment engine
(`netaddr2::Contains` for `Netv6Addr`, not among the sources of this repository). -/
def netv6Contains (base plen : Nat) : IpAddr → Bool
  | .V6 a => (base &&& maskBits 128 plen) == (a &&& maskBits 128 plen)
  | .V4 _ => false

/-- Family-dispatched containment: the test the facade performs once a
subnet has been parsed, guard on family included. -/
def netContains (n : NetAddr) (a : IpAddr) : Bool :=
  match n with
  | .V4 b p => a.is_ipv4 && netv4Contains b p a
  | .V6 b p => a.is_ipv6 && netv6Contains b p a

/-- True when the address and the subnet belong to the same family. -/
def sameFam : IpAddr → NetAddr → Bool
  | .V4 _, .V4 _ _ => true
  | .V6 _, .V6 _ _ => true
  | _, _ => false

/-! ### CIDR parser, modelled from the spec (the parser lives in the
`netaddr2` crate, outside the sources of this repository). Grammar:
`ADDRESS["/" PREFIX]` with `ADDRESS` a dotted-decimal or colon-hex
literal and `PREFIX` a decimal integer within the family bit width;
a bare address is a host route with full prefix length. -/

/-- Split a character list on a separator character; `n` separators give
`n+1` (possibly empty) parts. -/
def splitOnChar (sep : Char) : List Char → List (List Char)
  | [] => [[]]
  | c :: cs =>
    if c = sep then [] :: splitOnChar sep cs
    else
      match splitOnChar sep cs with
      | g :: gs => (c :: g) :: gs
      | [] => [[c]]

def isDecDigit (c : Char) : Bool := 48 ≤ c.toNat && c.toNat ≤ 57

/-- Decimal number literal: nonempty, digits only. -/
def decNat? (cs : List Char) : Option Nat :=
  if cs ≠ [] ∧ cs.all isDecDigit then
    some (cs.foldl (fun acc c => acc * 10 + (c.toNat - 48)) 0)
  else none

/-- One dotted-decimal octet: decimal, at most 255, no leading zero. -/
def parseOctet? (cs : List Char) : Option Nat :=
  match decNat? cs with
  | some v =>
    if v ≤ 255 ∧ (2 ≤ cs.length → cs.head? ≠ some '0') then some v else none
  | none => none

/-- Modelled from the spec: a 32-bit dotted-decimal address literal,
exactly four octets. -/
def parseIpv4? (cs : List Char) : Option Nat :=
  match splitOnChar '.' cs with
  | [o1, o2, o3, o4] =>
    match parseOctet? o1, parseOctet? o2, parseOctet? o3, parseOctet? o4 with
    | some a, some b, some c, some d => some (((a * 256 + b) * 256 + c) * 256 + d)
    | _, _, _, _ => none
  | _ => none

def hexDigitVal? (c : Char) : Option Nat :=
  if 48 ≤ c.toNat ∧ c.toNat ≤ 57 then some (c.toNat - 48)
  else if 97 ≤ c.toNat ∧ c.toNat ≤ 102 then some (c.toNat - 87)
  else if 65 ≤ c.toNat ∧ c.toNat ≤ 70 then some (c.toNat - 55)
  else none

def hexDigitsVal? : List Char → Option (List Nat)
  | [] => some []
  | c :: cs =>
    match hexDigitVal? c, hexDigitsVal? cs with
    | some d, some ds => some (d :: ds)
    | _, _ => none

/-- Accumulate digit groups in base `B`, most significant first. -/
def combineGroups (B : Nat) : Nat → List Nat → Nat
  | acc, [] => acc
  | acc, d :: ds => combineGroups B (acc * B + d) ds

/-- One colon-hex group: one to four hex digits. -/
def parseHexGroup? (cs : List Char) : Option Nat :=
  if cs ≠ [] ∧ cs.length ≤ 4 then
    match hexDigitsVal? cs with
    | some ds => some (combineGroups 16 0 ds)
    | none => none
  else none

def parseGroupList? : List (List Char) → Option (List Nat)
  | [] => some []
  | p :: ps =>
    match parseHexGroup? p, parseGroupList? ps with
    | some g, some gs => some (g :: gs)
    | _, _ => none

/-- Split a character list at the first occurrence of a double colon,
returning the text before and after it, or none when there is no
double colon. -/
def splitDoubleColon : List Char → Option (List Char × List Char)
  | [] => none
  | ':' :: ':' :: rest => some ([], rest)
  | c :: rest =>
    match splitDoubleColon rest with
    | some (l, r) => some (c :: l, r)
    | none => none

/-- Modelled from the spec: a 128-bit colon-hex address literal, eight
groups of up to four hex digits, with at most one `::` run standing for
the missing zero groups. -/
def parseIpv6? (cs : List Char) : Option Nat :=
  match splitDoubleColon cs with
  | some (l, r) =>
    if (splitDoubleColon r).isSome then none
    else
      match parseGroupList? (if l = [] then [] else splitOnChar ':' l),
            parseGroupList? (if r = [] then [] else splitOnChar ':' r) with
      | some lg, some rg =>
        if lg.length + rg.length ≤ 7 then
          some (combineGroups 65536 0
            (lg ++ List.replicate (8 - lg.length - rg.length) 0 ++ rg))
        else none
      | _, _ => none
  | none =>
    match parseGroupList? (splitOnChar ':' cs) with
    | some gs => if gs.length = 8 then some (combineGroups 65536 0 gs) else none
    | none => none

/-- Modelled from the spec: the family of an address literal is
determined solely by its syntax. -/
def parseIpLiteral? (cs : List Char) : Option IpAddr :=
  match parseIpv4? cs with
  | some n => some (.V4 n)
  | none =>
    match parseIpv6? cs with
    | some n => some (.V6 n)
    | none => none

/-- Modelled from the spec: parse a subnet text `ADDRESS["/" PREFIX]`
into a `NetAddr`, or fail with a parse error echoing the offending text
(the `FromStr` instance of `netaddr2::NetAddr`, not among the sources of
this repository). A bare address is a host route with the full
prefix length of the family; a prefix beyond the family bit width is rejected. -/
def parseNetAddr (s : String) : Except ParseError NetAddr :=
  match splitOnChar '/' s.data with
  | [addrCs] =>
    match parseIpLiteral? addrCs with
    | some (.V4 n) => .ok (.V4 n 32)
    | some (.V6 n) => .ok (.V6 n 128)
    | none => .error ⟨s, "invalid address literal"⟩
  | [addrCs, prefCs] =>
    match parseIpLiteral? addrCs, decNat? prefCs with
    | some (.V4 n), some p =>
      if p ≤ 32 then .ok (.V4 n p) else .error ⟨s, "prefix length out of range"⟩
    | some (.V6 n), some p =>
      if p ≤ 128 then .ok (.V6 n p) else .error ⟨s, "prefix length out of range"⟩
    | _, _ => .error ⟨s, "invalid address or prefix"⟩
  | _ => .error ⟨s, "malformed subnet text"⟩

/-! ### The four facade functions, embedded from `src/lib.rs`. -/

/-- Embeds `addr_in_subnet` (src/lib.rs lines 77-87): parse once, test
once, propagate the parse failure. -/
def addr_in_subnet (addr : IpAddr) (subnet : String) : Except ParseError Bool :=
  match parseNetAddr subnet with
  | .ok (.V4 b p) => .ok (addr.is_ipv4 && netv4Contains b p addr)
  | .ok (.V6 b p) => .ok (addr.is_ipv6 && netv6Contains b p addr)
  | .error e => .error e

/-- Embeds `addr_in_any_subnet` (src/lib.rs lines 102-119): scan in
order, return true on the first containing subnet, surface the first
parse failure, false after an exhaustive scan. -/
def addr_in_any_subnet (addr : IpAddr) : List String → Except ParseError Bool
  | [] => .ok false
  | subnet :: rest =>
    match parseNetAddr subnet with
    | .ok (.V4 b p) =>
      if addr.is_ipv4 && netv4Contains b p addr then .ok true
      else addr_in_any_subnet addr rest
    | .ok (.V6 b p) =>
      if addr.is_ipv6 && netv6Contains b p addr then .ok true
      else addr_in_any_subnet addr rest
    | .error e => .error e

/-- Embeds `addr_in_all_subnets` (src/lib.rs lines 133-140): the Rust
loop body is `if let Ok(false) = addr_in_subnet(addr, subnet) { return
Ok(false); }`, so only a definite negative verdict stops the scan and
parse failures fall through to the next entry. -/
def addr_in_all_subnets (addr : IpAddr) : List String → Except ParseError Bool
  | [] => .ok true
  | subnet :: rest =>
    match addr_in_subnet addr subnet with
    | .ok false => .ok false
    | _ => addr_in_all_subnets addr rest

/-- Embeds `any_addr_in_any_subnet` (src/lib.rs lines 155-176): for each
subnet text in order, parse once, then scan the address list; the inner
Rust loop returns true at the first contained address, which is
`List.any` over the address list. -/
def any_addr_in_any_subnet (addrs : List IpAddr) : List String → Except ParseError Bool
  | [] => .ok false
  | subnet :: rest =>
    match parseNetAddr subnet with
    | .ok (.V4 b p) =>
      if addrs.any (fun a => a.is_ipv4 && netv4Contains b p a) then .ok true
      else any_addr_in_any_subnet addrs rest
    | .ok (.V6 b p) =>
      if addrs.any (fun a => a.is_ipv6 && netv6Contains b p a) then .ok true
      else any_addr_in_any_subnet addrs rest
    | .error e => .error e

deriving instance DecidableEq for Except

/-! ### Basic lemmas relating the facade functions to the parser and the
containment engine. -/

theorem addr_in_subnet_parse_ok (a : IpAddr) (s : String) (n : NetAddr)
    (h : parseNetAddr s = .ok n) : addr_in_subnet a s = .ok (netContains n a) := by
  unfold addr_in_subnet
  rw [h]
  cases n <;> rfl

theorem addr_in_subnet_parse_err (a : IpAddr) (s : String) (e : ParseError)
    (h : parseNetAddr s = .error e) : addr_in_subnet a s = .error e := by
  unfold addr_in_subnet
  rw [h]

theorem addr_in_subnet_err_iff (a : IpAddr) (s : String) (e : ParseError) :
    addr_in_subnet a s = .error e ↔ parseNetAddr s = .error e := by
  constructor
  · intro h
    unfold addr_in_subnet at h
    cases hp : parseNetAddr s with
    | ok n => rw [hp] at h; cases n <;> simp at h
    | error e2 =>
      rw [hp] at h
      simp only [Except.error.injEq] at h
      rw [h]
  · exact addr_in_subnet_parse_err a s e

theorem any_subnet_step (addr : IpAddr) (s : String) (rest : List String) :
    addr_in_any_subnet addr (s :: rest) =
      match addr_in_subnet addr s with
      | .ok true => .ok true
      | .ok false => addr_in_any_subnet addr rest
      | .error e => .error e := by
  simp only [addr_in_any_subnet]
  unfold addr_in_subnet
  cases hp : parseNetAddr s with
  | ok n =>
    cases n with
    | V4 b p => cases hc : (addr.is_ipv4 && netv4Contains b p addr) <;> simp [hc]
    | V6 b p => cases hc : (addr.is_ipv6 && netv6Contains b p addr) <;> simp [hc]
  | error e => rfl

theorem all_subnets_step (addr : IpAddr) (s : String) (rest : List String) :
    addr_in_all_subnets addr (s :: rest) =
      match addr_in_subnet addr s with
      | .ok false => .ok false
      | _ => addr_in_all_subnets addr rest := rfl

theorem any_addr_step (addrs : List IpAddr) (s : String) (rest : List String) :
    any_addr_in_any_subnet addrs (s :: rest) =
      match parseNetAddr s with
      | .ok n =>
        if addrs.any (fun a => netContains n a) then .ok true
        else any_addr_in_any_subnet addrs rest
      | .error e => .error e := by
  simp only [any_addr_in_any_subnet]
  cases hp : parseNetAddr s with
  | ok n => cases n <;> simp [netContains]
  | error e => rfl

/-! ### Parser invariants: a parsed base address lies below 2^width and
the prefix length never exceeds the width. -/

theorem parseOctet?_le (cs : List Char) (v : Nat) (h : parseOctet? cs = some v) :
    v ≤ 255 := by
  unfold parseOctet? at h
  split at h
  · rename_i w hw
    split at h
    · rename_i hcond
      exact Option.some.inj h ▸ hcond.1
    · simp at h
  · simp at h

theorem parseIpv4?_lt (cs : List Char) (n : Nat) (h : parseIpv4? cs = some n) :
    n < 2 ^ 32 := by
  have h32 : (2 : Nat) ^ 32 = 4294967296 := by norm_num
  unfold parseIpv4? at h
  split at h
  · split at h
    · rename_i a b c d ha hb hc hd
      cases h
      have := parseOctet?_le _ _ ha
      have := parseOctet?_le _ _ hb
      have := parseOctet?_le _ _ hc
      have := parseOctet?_le _ _ hd
      omega
    · simp at h
  · simp at h

theorem hexDigitVal?_lt (c : Char) (d : Nat) (h : hexDigitVal? c = some d) :
    d < 16 := by
  unfold hexDigitVal? at h
  split at h
  · rename_i hc; cases h; omega
  · split at h
    · rename_i hc; cases h; omega
    · split at h
      · rename_i hc; cases h; omega
      · simp at h

theorem hexDigitsVal?_facts (cs : List Char) (ds : List Nat)
    (h : hexDigitsVal? cs = some ds) :
    (∀ d ∈ ds, d < 16) ∧ ds.length = cs.length := by
  induction cs generalizing ds with
  | nil =>
    unfold hexDigitsVal? at h
    cases h
    simp
  | cons c cs ih =>
    unfold hexDigitsVal? at h
    split at h
    · rename_i d0 ds0 hd0 hds0
      cases h
      obtain ⟨h1, h2⟩ := ih ds0 hds0
      refine ⟨?_, by simp [h2]⟩
      intro d hd
      rcases List.mem_cons.mp hd with h | h
      · subst h; exact hexDigitVal?_lt _ _ hd0
      · exact h1 d h
    · simp at h

theorem combineGroups_lt (B : Nat) (ds : List Nat) :
    ∀ (acc M : Nat), (∀ d ∈ ds, d < B) → acc < M →
      combineGroups B acc ds < M * B ^ ds.length := by
  induction ds with
  | nil =>
    intro acc M _ h
    simpa [combineGroups] using h
  | cons d ds ih =>
    intro acc M hd h
    have hdB : d < B := hd d (by simp)
    have h1 : acc * B + d < M * B := by
      have hge : acc + 1 ≤ M := h
      have : (acc + 1) * B ≤ M * B := Nat.mul_le_mul_right B hge
      nlinarith
    have h2 := ih (acc * B + d) (M * B) (fun x hx => hd x (by simp [hx])) h1
    calc combineGroups B acc (d :: ds) = combineGroups B (acc * B + d) ds := rfl
      _ < (M * B) * B ^ ds.length := h2
      _ = M * B ^ (d :: ds).length := by
          simp only [List.length_cons, pow_succ]
          ring

theorem parseHexGroup?_lt (cs : List Char) (g : Nat)
    (h : parseHexGroup? cs = some g) : g < 65536 := by
  unfold parseHexGroup? at h
  split at h
  · rename_i hcond
    split at h
    · rename_i ds hds
      cases h
      obtain ⟨h1, h2⟩ := hexDigitsVal?_facts cs ds hds
      have hb := combineGroups_lt 16 ds 0 1 h1 (by omega)
      have hlen : ds.length ≤ 4 := by rw [h2]; exact hcond.2
      calc combineGroups 16 0 ds < 1 * 16 ^ ds.length := hb
        _ ≤ 1 * 16 ^ 4 := by
            have := Nat.pow_le_pow_right (show 1 ≤ 16 by omega) hlen
            omega
        _ = 65536 := by norm_num
    · simp at h
  · simp at h

theorem parseGroupList?_facts (ps : List (List Char)) (gs : List Nat)
    (h : parseGroupList? ps = some gs) :
    (∀ g ∈ gs, g < 65536) ∧ gs.length = ps.length := by
  induction ps generalizing gs with
  | nil =>
    unfold parseGroupList? at h
    cases h
    simp
  | cons p ps ih =>
    unfold parseGroupList? at h
    split at h
    · rename_i g0 gs0 hg0 hgs0
      cases h
      obtain ⟨h1, h2⟩ := ih gs0 hgs0
      refine ⟨?_, by simp [h2]⟩
      intro g hg
      rcases List.mem_cons.mp hg with h | h
      · subst h; exact parseHexGroup?_lt _ _ hg0
      · exact h1 g h
    · simp at h

theorem combine65536_lt_of_len8 (gs : List Nat) (hall : ∀ g ∈ gs, g < 65536)
    (hlen : gs.length = 8) : combineGroups 65536 0 gs < 2 ^ 128 := by
  have hb := combineGroups_lt 65536 gs 0 1 hall (by omega)
  rw [hlen] at hb
  calc combineGroups 65536 0 gs < 1 * 65536 ^ 8 := hb
    _ = 2 ^ 128 := by
        rw [one_mul, show (65536 : Nat) = 2 ^ 16 from by norm_num, ← pow_mul]

theorem parseIpv6?_lt (cs : List Char) (n : Nat) (h : parseIpv6? cs = some n) :
    n < 2 ^ 128 := by
  unfold parseIpv6? at h
  split at h
  · rename_i l r hdc
    split at h
    · simp at h
    · split at h
      · rename_i lg rg hlg hrg
        split at h
        · rename_i hle
          cases h
          obtain ⟨hl1, hl2⟩ := parseGroupList?_facts _ _ hlg
          obtain ⟨hr1, hr2⟩ := parseGroupList?_facts _ _ hrg
          apply combine65536_lt_of_len8
          · intro g hg
            rcases List.mem_append.mp hg with hg | hg
            · rcases List.mem_append.mp hg with hg | hg
              · exact hl1 g hg
              · rw [List.eq_of_mem_replicate hg]; omega
            · exact hr1 g hg
          · simp only [List.length_append, List.length_replicate]
            omega
        · simp at h
      · simp at h
  · split at h
    · rename_i gs hgs
      split at h
      · rename_i hlen
        cases h
        obtain ⟨h1, _⟩ := parseGroupList?_facts _ _ hgs
        exact combine65536_lt_of_len8 gs h1 hlen
      · simp at h
    · simp at h

theorem parseIpLiteral?_V4_lt (cs : List Char) (n : Nat)
    (h : parseIpLiteral? cs = some (.V4 n)) : n < 2 ^ 32 := by
  unfold parseIpLiteral? at h
  split at h
  · rename_i m hm
    cases h
    exact parseIpv4?_lt _ _ hm
  · split at h
    · simp at h
    · simp at h

theorem parseIpLiteral?_V6_lt (cs : List Char) (n : Nat)
    (h : parseIpLiteral? cs = some (.V6 n)) : n < 2 ^ 128 := by
  unfold parseIpLiteral? at h
  split at h
  · simp at h
  · split at h
    · rename_i m hm
      cases h
      exact parseIpv6?_lt _ _ hm
    · simp at h

theorem parseNetAddr_V4_inv (s : String) (b p : Nat)
    (h : parseNetAddr s = .ok (.V4 b p)) : b < 2 ^ 32 ∧ p ≤ 32 := by
  unfold parseNetAddr at h
  split at h
  · split at h
    · rename_i m hm
      cases h
      exact ⟨parseIpLiteral?_V4_lt _ _ hm, by omega⟩
    · simp at h
    · simp at h
  · split at h
    · rename_i m q hm hq
      split at h
      · rename_i hle
        cases h
        exact ⟨parseIpLiteral?_V4_lt _ _ hm, hle⟩
      · simp at h
    · rename_i m q hm hq
      split at h
      · simp at h
      · simp at h
    · simp at h
  · simp at h

theorem parseNetAddr_V6_inv (s : String) (b p : Nat)
    (h : parseNetAddr s = .ok (.V6 b p)) : b < 2 ^ 128 ∧ p ≤ 128 := by
  unfold parseNetAddr at h
  split at h
  · split at h
    · simp at h
    · rename_i m hm
      cases h
      exact ⟨parseIpLiteral?_V6_lt _ _ hm, by omega⟩
    · simp at h
  · split at h
    · rename_i m q hm hq
      split at h
      · simp at h
      · simp at h
    · rename_i m q hm hq
      split at h
      · rename_i hle
        cases h
        exact ⟨parseIpLiteral?_V6_lt _ _ hm, hle⟩
      · simp at h
    · simp at h
  · simp at h

/-- C1: for every parsed subnet and same-family candidate address the
containment test returns exactly `(base &&& mask) == (addr &&& mask)`
with `mask` the top `prefix_length` bits at the family width; prefix 0
matches every same-family address, and a full-width prefix matches only
the exact address. -/
theorem claimC1_containment_formula :
    (∀ (s : String) (b p a : Nat), parseNetAddr s = .ok (.V4 b p) →
      addr_in_subnet (.V4 a) s =
          .ok ((b &&& maskBits 32 p) == (a &&& maskBits 32 p))
        ∧ (p = 0 → addr_in_subnet (.V4 a) s = .ok true)
        ∧ (p = 32 → a < 2 ^ 32 →
            (addr_in_subnet (.V4 a) s = .ok true ↔ a = b)))
    ∧ (∀ (s : String) (b p a : Nat), parseNetAddr s = .ok (.V6 b p) →
      addr_in_subnet (.V6 a) s =
          .ok ((b &&& maskBits 128 p) == (a &&& maskBits 128 p))
        ∧ (p = 0 → addr_in_subnet (.V6 a) s = .ok true)
        ∧ (p = 128 → a < 2 ^ 128 →
            (addr_in_subnet (.V6 a) s = .ok true ↔ a = b))) := by
  constructor
  · intro s b p a h
    have heq : addr_in_subnet (.V4 a) s =
        .ok ((b &&& maskBits 32 p) == (a &&& maskBits 32 p)) := by
      rw [addr_in_subnet_parse_ok _ _ _ h]
      simp [netContains, netv4Contains, IpAddr.is_ipv4]
    refine ⟨heq, ?_, ?_⟩
    · intro hp0
      subst hp0
      rw [heq]
      have hm : maskBits 32 0 = 0 := by norm_num [maskBits]
      simp [hm]
    · intro hp32 ha
      subst hp32
      have hb := (parseNetAddr_V4_inv s b 32 h).1
      rw [heq]
      have hm : maskBits 32 32 = 2 ^ 32 - 1 := by norm_num [maskBits]
      rw [hm, Nat.and_pow_two_sub_one_eq_mod, Nat.and_pow_two_sub_one_eq_mod,
        Nat.mod_eq_of_lt hb, Nat.mod_eq_of_lt ha]
      constructor
      · intro hE
        exact (eq_of_beq (Except.ok.inj hE)).symm
      · intro hab
        subst hab
        simp
  · intro s b p a h
    have heq : addr_in_subnet (.V6 a) s =
        .ok ((b &&& maskBits 128 p) == (a &&& maskBits 128 p)) := by
      rw [addr_in_subnet_parse_ok _ _ _ h]
      simp [netContains, netv6Contains, IpAddr.is_ipv6]
    refine ⟨heq, ?_, ?_⟩
    · intro hp0
      subst hp0
      rw [heq]
      have hm : maskBits 128 0 = 0 := by norm_num [maskBits]
      simp [hm]
    · intro hp128 ha
      subst hp128
      have hb := (parseNetAddr_V6_inv s b 128 h).1
      rw [heq]
      have hm : maskBits 128 128 = 2 ^ 128 - 1 := by norm_num [maskBits]
      rw [hm, Nat.and_pow_two_sub_one_eq_mod, Nat.and_pow_two_sub_one_eq_mod,
        Nat.mod_eq_of_lt hb, Nat.mod_eq_of_lt ha]
      constructor
      · intro hE
        exact (eq_of_beq (Except.ok.inj hE)).symm
      · intro hab
        subst hab
        simp

/-- C1 witness: the containment formula evaluated on the concrete subnet
`192.168.182.0/24` and a concrete default-route case `::/0`. -/
theorem claimC1_containment_formula_witness :
    addr_in_subnet (.V4 3232282113) "192.168.182.0/24" =
        .ok ((3232282112 &&& maskBits 32 24) == (3232282113 &&& maskBits 32 24))
      ∧ addr_in_subnet (.V6 5) "::/0" = .ok true := by
  refine ⟨(claimC1_containment_formula.1 "192.168.182.0/24" 3232282112 24
    3232282113 (by decide)).1, ?_⟩
  exact (claimC1_containment_formula.2 "::/0" 0 0 5 (by decide)).2.1 rfl

/-- C9: for every address, the any-subnet test over the empty subnet
list returns false and the all-subnets test over the empty list returns
true. -/
theorem claimC9_empty_lists (addr : IpAddr) :
    addr_in_any_subnet addr [] = .ok false ∧
      addr_in_all_subnets addr [] = .ok true :=
  ⟨rfl, rfl⟩

/-- True when a facade result is a definitive boolean, not an error. -/
def exceptIsOk : Except ParseError Bool → Bool
  | .ok _ => true
  | .error _ => false

theorem any_subnet_false_iff (addr : IpAddr) (l : List String) :
    addr_in_any_subnet addr l = .ok false ↔
      ∀ t ∈ l, addr_in_subnet addr t = .ok false := by
  induction l with
  | nil => simp [addr_in_any_subnet]
  | cons s rest ih =>
    rw [any_subnet_step]
    cases hs : addr_in_subnet addr s with
    | ok b =>
      cases b
      · simp [List.forall_mem_cons, hs, ih]
      · simp [List.forall_mem_cons, hs]
    | error e => simp [List.forall_mem_cons, hs]

/-- C4: the any-subnet test scans in order: with a clean non-matching
prefix it returns true at the first containing subnet regardless of the
later entries, surfaces the first parse failure seen before any match,
and returns false exactly when every entry parsed and none contained
the address. -/
theorem claimC4_any_subnet_order :
    (∀ (addr : IpAddr) (l1 : List String) (s : String) (l2 : List String),
      (∀ t ∈ l1, addr_in_subnet addr t = .ok false) →
      addr_in_subnet addr s = .ok true →
      addr_in_any_subnet addr (l1 ++ s :: l2) = .ok true)
    ∧ (∀ (addr : IpAddr) (l1 : List String) (s : String) (l2 : List String)
        (e : ParseError),
      (∀ t ∈ l1, addr_in_subnet addr t = .ok false) →
      addr_in_subnet addr s = .error e →
      addr_in_any_subnet addr (l1 ++ s :: l2) = .error e)
    ∧ (∀ (addr : IpAddr) (l : List String),
      addr_in_any_subnet addr l = .ok false ↔
        ∀ t ∈ l, addr_in_subnet addr t = .ok false) := by
  refine ⟨?_, ?_, any_subnet_false_iff⟩
  · intro addr l1
    induction l1 with
    | nil =>
      intro s l2 _ hs
      rw [List.nil_append, any_subnet_step, hs]
    | cons t ts ih =>
      intro s l2 hall hs
      rw [List.cons_append, any_subnet_step, hall t (by simp)]
      exact ih s l2 (fun u hu => hall u (by simp [hu])) hs
  · intro addr l1
    induction l1 with
    | nil =>
      intro s l2 e _ hs
      rw [List.nil_append, any_subnet_step, hs]
    | cons t ts ih =>
      intro s l2 e hall hs
      rw [List.cons_append, any_subnet_step, hall t (by simp)]
      exact ih s l2 e (fun u hu => hall u (by simp [hu])) hs

/-- C4 witness: the scan behavior on concrete lists around the address
192.168.182.1: a match before a malformed entry yields true, a malformed
entry before the match yields its parse failure, and a clean
non-matching list yields false. -/
theorem claimC4_any_subnet_order_witness :
    addr_in_any_subnet (.V4 3232282113)
        ["192.168.181.0/24", "192.168.182.0/24", "zzz"] = .ok true
    ∧ addr_in_any_subnet (.V4 3232282113)
        ["192.168.181.0/24", "zzz", "192.168.182.0/24"] =
          .error ⟨"zzz", "invalid address literal"⟩
    ∧ addr_in_any_subnet (.V4 3232282113) ["192.168.181.0/24"] = .ok false := by
  refine ⟨claimC4_any_subnet_order.1 (.V4 3232282113) ["192.168.181.0/24"]
      "192.168.182.0/24" ["zzz"] (by decide) (by decide),
    claimC4_any_subnet_order.2.1 (.V4 3232282113) ["192.168.181.0/24"]
      "zzz" ["192.168.182.0/24"] ⟨"zzz", "invalid address literal"⟩
      (by decide) (by decide),
    (claimC4_any_subnet_order.2.2 (.V4 3232282113) ["192.168.181.0/24"]).mpr
      (by decide)⟩

/-- C2 counterexample: the all-subnets test returns true on a list whose
single entry does not parse, so "true only if every entry parses" fails
on the code: the Rust loop `if let Ok(false) = ...` lets a parse failure
fall through. -/
theorem claimC2_all_subnets_cex :
    addr_in_all_subnets (.V4 0) ["zzz"] = .ok true
      ∧ parseNetAddr "zzz" = .error ⟨"zzz", "invalid address literal"⟩ :=
  ⟨by decide, by decide⟩

/-- C2 amended: the all-subnets test returns true only if every entry
that parses successfully denotes a subnet containing the address
(malformed entries are skipped and do not prevent a true verdict). -/
theorem claimC2_all_subnets_amended :
    ∀ (addr : IpAddr) (l : List String), addr_in_all_subnets addr l = .ok true →
      ∀ s ∈ l, ∀ n, parseNetAddr s = .ok n → netContains n addr = true := by
  intro addr l
  induction l with
  | nil =>
    intro _ s hs
    simp at hs
  | cons t ts ih =>
    intro h s hs n hn
    rw [all_subnets_step] at h
    cases hts : addr_in_subnet addr t with
    | ok b =>
      cases b
      · rw [hts] at h
        simp at h
      · rcases List.mem_cons.mp hs with rfl | hs2
        · have hok := addr_in_subnet_parse_ok addr s n hn
          rw [hok] at hts
          exact Except.ok.inj hts
        · rw [hts] at h
          exact ih h s hs2 n hn
    | error e =>
      rcases List.mem_cons.mp hs with rfl | hs2
      · rw [addr_in_subnet_parse_ok addr s n hn] at hts
        simp at hts
      · rw [hts] at h
        exact ih h s hs2 n hn

/-- C2 amended witness: evaluated at the address 192.168.182.1 and the
single parsing entry 192.168.182.0/24. -/
theorem claimC2_all_subnets_amended_witness :
    netContains (.V4 3232282112 24) (.V4 3232282113) = true :=
  claimC2_all_subnets_amended (.V4 3232282113) ["192.168.182.0/24"]
    (by decide) "192.168.182.0/24" (by decide) (.V4 3232282112 24) (by decide)

/-- C3: the all-subnets test never returns an error, and a malformed
subnet text at the head of the list is discarded: the result over the
remaining list is unchanged, so the scan continues and a boolean is
always produced. -/
theorem claimC3_all_subnets_total :
    (∀ (addr : IpAddr) (l : List String),
      exceptIsOk (addr_in_all_subnets addr l) = true)
    ∧ (∀ (addr : IpAddr) (s : String) (l : List String) (e : ParseError),
        parseNetAddr s = .error e →
        addr_in_all_subnets addr (s :: l) = addr_in_all_subnets addr l) := by
  constructor
  · intro addr l
    induction l with
    | nil => rfl
    | cons t ts ih =>
      rw [all_subnets_step]
      cases hts : addr_in_subnet addr t with
      | ok b =>
        cases b
        · rfl
        · exact ih
      | error e => exact ih
  · intro addr s l e he
    rw [all_subnets_step, addr_in_subnet_parse_err addr s e he]

/-- C3 witness: a list holding two malformed texts still yields a
boolean, and dropping a malformed head leaves the verdict unchanged. -/
theorem claimC3_all_subnets_total_witness :
    exceptIsOk (addr_in_all_subnets (.V4 0) ["zzz", "10.0.0.0/33"]) = true
      ∧ addr_in_all_subnets (.V4 0) ["zzz"] = addr_in_all_subnets (.V4 0) [] :=
  ⟨claimC3_all_subnets_total.1 (.V4 0) ["zzz", "10.0.0.0/33"],
   claimC3_all_subnets_total.2 (.V4 0) "zzz" []
     ⟨"zzz", "invalid address literal"⟩ (by decide)⟩

theorem netContains_cross_false (a : IpAddr) (n : NetAddr)
    (h : sameFam a n = false) : netContains n a = false := by
  cases a <;> cases n <;>
    simp_all [sameFam, netContains, netv4Contains, netv6Contains,
      IpAddr.is_ipv4, IpAddr.is_ipv6]

/-- C5: containment of an address against a successfully parsed subnet
of the other family is false and never an error, for the single-subnet
test; and a scan over subnets entirely of the other family yields false
in each of the three list operations. -/
theorem claimC5_cross_family :
    (∀ (a : IpAddr) (s : String) (n : NetAddr), parseNetAddr s = .ok n →
      sameFam a n = false → addr_in_subnet a s = .ok false)
    ∧ (∀ (a : IpAddr) (l : List String),
      (∀ s ∈ l, ∃ n, parseNetAddr s = .ok n ∧ sameFam a n = false) →
      addr_in_any_subnet a l = .ok false)
    ∧ (∀ (a : IpAddr) (l : List String), l ≠ [] →
      (∀ s ∈ l, ∃ n, parseNetAddr s = .ok n ∧ sameFam a n = false) →
      addr_in_all_subnets a l = .ok false)
    ∧ (∀ (addrs : List IpAddr) (l : List String),
      (∀ s ∈ l, ∃ n, parseNetAddr s = .ok n ∧ ∀ a ∈ addrs, sameFam a n = false) →
      any_addr_in_any_subnet addrs l = .ok false) := by
  have single : ∀ (a : IpAddr) (s : String) (n : NetAddr), parseNetAddr s = .ok n →
      sameFam a n = false → addr_in_subnet a s = .ok false := by
    intro a s n hn hf
    rw [addr_in_subnet_parse_ok a s n hn, netContains_cross_false a n hf]
  refine ⟨single, ?_, ?_, ?_⟩
  · intro a l hall
    rw [any_subnet_false_iff]
    intro t ht
    obtain ⟨n, hn, hf⟩ := hall t ht
    exact single a t n hn hf
  · intro a l hne hall
    cases l with
    | nil => exact absurd rfl hne
    | cons s rest =>
      obtain ⟨n, hn, hf⟩ := hall s (by simp)
      rw [all_subnets_step, single a s n hn hf]
  · intro addrs l
    induction l with
    | nil => intro _; rfl
    | cons s rest ih =>
      intro hall
      obtain ⟨n, hn, hcross⟩ := hall s (by simp)
      have hany : (addrs.any fun a => netContains n a) = false := by
        simp only [List.any_eq_false]
        intro a ha
        simp [netContains_cross_false a n (hcross a ha)]
      rw [any_addr_step, hn]
      simp only [hany, Bool.false_eq_true, if_false]
      exact ih (fun t ht => hall t (by simp [ht]))

/-- C5 witness: the v4 address 0.0.0.1 against the parsed v6 subnet
`::/0`, alone and through the three list operations. -/
theorem claimC5_cross_family_witness :
    addr_in_subnet (.V4 1) "::/0" = .ok false
    ∧ addr_in_any_subnet (.V4 1) ["::/0"] = .ok false
    ∧ addr_in_all_subnets (.V4 1) ["::/0"] = .ok false
    ∧ any_addr_in_any_subnet [.V4 1] ["::/0"] = .ok false := by
  have hs : ∀ s ∈ ["::/0"], ∃ n, parseNetAddr s = .ok n ∧
      sameFam (IpAddr.V4 1) n = false := by
    intro s hs
    rw [List.mem_singleton] at hs
    subst hs
    exact ⟨.V6 0 0, by decide, by decide⟩
  have hs2 : ∀ s ∈ ["::/0"], ∃ n, parseNetAddr s = .ok n ∧
      ∀ a ∈ [IpAddr.V4 1], sameFam a n = false := by
    intro s hs
    rw [List.mem_singleton] at hs
    subst hs
    exact ⟨.V6 0 0, by decide, by decide⟩
  exact ⟨claimC5_cross_family.1 (.V4 1) "::/0" (.V6 0 0) (by decide) (by decide),
    claimC5_cross_family.2.1 (.V4 1) ["::/0"] hs,
    claimC5_cross_family.2.2.1 (.V4 1) ["::/0"] (by simp) hs,
    claimC5_cross_family.2.2.2 [.V4 1] ["::/0"] hs2⟩

theorem any_addr_step_ok (addrs : List IpAddr) (s : String) (rest : List String)
    (n : NetAddr) (h : parseNetAddr s = .ok n) :
    any_addr_in_any_subnet addrs (s :: rest) =
      if (addrs.any fun a => netContains n a) then .ok true
      else any_addr_in_any_subnet addrs rest := by
  rw [any_addr_step, h]

theorem any_addr_false_iff (addrs : List IpAddr) (l : List String) :
    any_addr_in_any_subnet addrs l = .ok false ↔
      ∀ s ∈ l, ∃ n, parseNetAddr s = .ok n ∧
        (addrs.any fun a => netContains n a) = false := by
  induction l with
  | nil => simp [any_addr_in_any_subnet]
  | cons s rest ih =>
    cases hs : parseNetAddr s with
    | ok n =>
      rw [any_addr_step_ok addrs s rest n hs]
      split
      · rename_i hany
        constructor
        · intro h
          simp at h
        · intro hall
          obtain ⟨m, hm, hmf⟩ := hall s (List.mem_cons_self s rest)
          rw [hs] at hm
          have hmn : m = n := (Except.ok.inj hm).symm
          subst hmn
          rw [hmf] at hany
          simp at hany
      · rename_i hany
        have hany2 : (addrs.any fun a => netContains n a) = false := by
          simpa using hany
        rw [ih]
        constructor
        · intro hrest t ht
          rcases List.mem_cons.mp ht with rfl | ht2
          · exact ⟨n, hs, hany2⟩
          · exact hrest t ht2
        · intro hall t ht
          exact hall t (List.mem_cons_of_mem s ht)
    | error e =>
      rw [any_addr_step, hs]
      constructor
      · intro h
        simp at h
      · intro hall
        obtain ⟨m, hm, _⟩ := hall s (List.mem_cons_self s rest)
        rw [hs] at hm
        simp at hm

/-- C6: the cross-product test scans subnet texts in order: with a clean
non-hitting prefix it returns true at the first subnet containing some
listed address, surfaces a subnet parse failure as the error, and
returns false exactly when every subnet text parses and no
(subnet, address) pair matches. -/
theorem claimC6_cross_product :
    (∀ (addrs : List IpAddr) (l1 : List String) (s : String) (l2 : List String)
        (n : NetAddr),
      (∀ t ∈ l1, ∃ m, parseNetAddr t = .ok m ∧
        (addrs.any fun a => netContains m a) = false) →
      parseNetAddr s = .ok n →
      (addrs.any fun a => netContains n a) = true →
      any_addr_in_any_subnet addrs (l1 ++ s :: l2) = .ok true)
    ∧ (∀ (addrs : List IpAddr) (l1 : List String) (s : String) (l2 : List String)
        (e : ParseError),
      (∀ t ∈ l1, ∃ m, parseNetAddr t = .ok m ∧
        (addrs.any fun a => netContains m a) = false) →
      parseNetAddr s = .error e →
      any_addr_in_any_subnet addrs (l1 ++ s :: l2) = .error e)
    ∧ (∀ (addrs : List IpAddr) (l : List String),
      any_addr_in_any_subnet addrs l = .ok false ↔
        ∀ s ∈ l, ∃ n, parseNetAddr s = .ok n ∧
          (addrs.any fun a => netContains n a) = false) := by
  refine ⟨?_, ?_, any_addr_false_iff⟩
  · intro addrs l1
    induction l1 with
    | nil =>
      intro s l2 n _ hn hany
      rw [List.nil_append, any_addr_step, hn]
      simp [hany]
    | cons t ts ih =>
      intro s l2 n hall hn hany
      obtain ⟨m, hm, hmf⟩ := hall t (by simp)
      rw [List.cons_append, any_addr_step, hm]
      simp only [hmf, Bool.false_eq_true, if_false]
      exact ih s l2 n (fun u hu => hall u (by simp [hu])) hn hany
  · intro addrs l1
    induction l1 with
    | nil =>
      intro s l2 e _ he
      rw [List.nil_append, any_addr_step, he]
    | cons t ts ih =>
      intro s l2 e hall he
      obtain ⟨m, hm, hmf⟩ := hall t (by simp)
      rw [List.cons_append, any_addr_step, hm]
      simp only [hmf, Bool.false_eq_true, if_false]
      exact ih s l2 e (fun u hu => hall u (by simp [hu])) he

/-- C6 witness: the cross-product scenario from the tests of the repository: among
addresses 192.168.182.1 and 192.168.182.2, subnet 192.168.181.0/24 hits
nothing and 192.168.182.2/32 hits the second address, preceded by checks
that a parse failure surfaces and a clean miss yields false. -/
theorem claimC6_cross_product_witness :
    any_addr_in_any_subnet [.V4 3232282113, .V4 3232282114]
        ["192.168.181.0/24", "192.168.182.2/32"] = .ok true
    ∧ any_addr_in_any_subnet [.V4 3232282113] ["zzz"] =
        .error ⟨"zzz", "invalid address literal"⟩
    ∧ any_addr_in_any_subnet [.V4 3232282113] ["192.168.181.0/24"] = .ok false := by
  refine ⟨claimC6_cross_product.1 [.V4 3232282113, .V4 3232282114]
      ["192.168.181.0/24"] "192.168.182.2/32" [] (.V4 3232282114 32)
      ?_ (by decide) (by decide),
    claimC6_cross_product.2.1 [.V4 3232282113] [] "zzz" []
      ⟨"zzz", "invalid address literal"⟩ (by simp) (by decide),
    (claimC6_cross_product.2.2 [.V4 3232282113] ["192.168.181.0/24"]).mpr ?_⟩
  · intro t ht
    rw [List.mem_singleton] at ht
    subst ht
    exact ⟨.V4 3232281856 24, by decide, by decide⟩
  · intro t ht
    rw [List.mem_singleton] at ht
    subst ht
    exact ⟨.V4 3232281856 24, by decide, by decide⟩

/-- C10: with an empty address list the cross-product test still parses
every subnet text in order: it surfaces the first parse failure, and it
returns false exactly when every subnet text parses. -/
theorem claimC10_empty_addrs :
    (∀ (l1 : List String) (s : String) (l2 : List String) (e : ParseError),
      (∀ t ∈ l1, ∃ n, parseNetAddr t = .ok n) →
      parseNetAddr s = .error e →
      any_addr_in_any_subnet [] (l1 ++ s :: l2) = .error e)
    ∧ (∀ l : List String,
      any_addr_in_any_subnet [] l = .ok false ↔
        ∀ s ∈ l, ∃ n, parseNetAddr s = .ok n) := by
  constructor
  · intro l1
    induction l1 with
    | nil =>
      intro s l2 e _ he
      rw [List.nil_append, any_addr_step, he]
    | cons t ts ih =>
      intro s l2 e hall he
      obtain ⟨n, hn⟩ := hall t (by simp)
      rw [List.cons_append, any_addr_step, hn]
      simp only [List.any_nil, Bool.false_eq_true, if_false]
      exact ih s l2 e (fun u hu => hall u (by simp [hu])) he
  · intro l
    rw [any_addr_false_iff]
    simp

/-- C10 witness: with no addresses, a malformed second entry surfaces as
the error and an all-parsing list yields false. -/
theorem claimC10_empty_addrs_witness :
    any_addr_in_any_subnet [] ["192.168.182.0/24", "zzz"] =
        .error ⟨"zzz", "invalid address literal"⟩
    ∧ any_addr_in_any_subnet [] ["192.168.182.0/24"] = .ok false := by
  refine ⟨claimC10_empty_addrs.1 ["192.168.182.0/24"] "zzz" []
      ⟨"zzz", "invalid address literal"⟩ ?_ (by decide),
    (claimC10_empty_addrs.2 ["192.168.182.0/24"]).mpr ?_⟩
  · intro t ht
    rw [List.mem_singleton] at ht
    subst ht
    exact ⟨.V4 3232282112 24, by decide⟩
  · intro t ht
    rw [List.mem_singleton] at ht
    subst ht
    exact ⟨.V4 3232282112 24, by decide⟩

theorem perm_any_eq {α : Type*} (p : α → Bool) (l1 l2 : List α)
    (h : l1.Perm l2) : l1.any p = l2.any p := by
  rw [List.any_eq, List.any_eq]
  refine decide_eq_decide.mpr ⟨?_, ?_⟩
  · rintro ⟨x, hx, hp⟩
    exact ⟨x, h.mem_iff.mp hx, hp⟩
  · rintro ⟨x, hx, hp⟩
    exact ⟨x, h.mem_iff.mpr hx, hp⟩

theorem all_subnets_eq_any (addr : IpAddr) (l : List String) :
    addr_in_all_subnets addr l =
      .ok (!(l.any fun s => decide (addr_in_subnet addr s = .ok false))) := by
  induction l with
  | nil => rfl
  | cons s rest ih =>
    rw [all_subnets_step]
    cases hs : addr_in_subnet addr s with
    | ok b =>
      cases b
      · simp [hs]
      · simp [hs, ih]
    | error e => simp [hs, ih]

theorem any_subnet_eq_any (addr : IpAddr) (l : List String)
    (hok : ∀ s ∈ l, ∀ e, parseNetAddr s ≠ .error e) :
    addr_in_any_subnet addr l =
      .ok (l.any fun s => decide (addr_in_subnet addr s = .ok true)) := by
  induction l with
  | nil => rfl
  | cons s rest ih =>
    rw [any_subnet_step]
    cases hs : addr_in_subnet addr s with
    | ok b =>
      cases b
      · rw [ih (fun t ht e => hok t (by simp [ht]) e)]
        simp [hs]
      · simp [hs]
    | error e =>
      exact absurd ((addr_in_subnet_err_iff addr s e).mp hs) (hok s (by simp) e)

/-- C7 counterexample: swapping a matching entry with a malformed one
changes the outcome of the any-subnet test from a true verdict to a
parse error, so the boolean verdict is not preserved under every
permutation. -/
theorem claimC7_order_independence_cex :
    List.Perm ["0.0.0.0/0", "zzz"] ["zzz", "0.0.0.0/0"]
    ∧ addr_in_any_subnet (.V4 0) ["0.0.0.0/0", "zzz"] = .ok true
    ∧ addr_in_any_subnet (.V4 0) ["zzz", "0.0.0.0/0"] =
        .error ⟨"zzz", "invalid address literal"⟩ :=
  ⟨List.Perm.swap "zzz" "0.0.0.0/0" [], by decide, by decide⟩

/-- C7 amended: the all-subnets verdict is unchanged under every
permutation of the subnet list; the any-subnet verdict is unchanged
under every permutation of a list in which every entry parses
successfully (when a parse error can surface, order decides whether the
scan reaches it before a match). -/
theorem claimC7_order_independence_amended :
    (∀ (addr : IpAddr) (l1 l2 : List String), l1.Perm l2 →
      addr_in_all_subnets addr l1 = addr_in_all_subnets addr l2)
    ∧ (∀ (addr : IpAddr) (l1 l2 : List String), l1.Perm l2 →
      (∀ s ∈ l1, ∀ e, parseNetAddr s ≠ .error e) →
      addr_in_any_subnet addr l1 = addr_in_any_subnet addr l2) := by
  constructor
  · intro addr l1 l2 h
    rw [all_subnets_eq_any, all_subnets_eq_any, perm_any_eq _ l1 l2 h]
  · intro addr l1 l2 h hok
    have hok2 : ∀ s ∈ l2, ∀ e, parseNetAddr s ≠ .error e :=
      fun s hs => hok s (h.mem_iff.mpr hs)
    rw [any_subnet_eq_any addr l1 hok, any_subnet_eq_any addr l2 hok2,
      perm_any_eq _ l1 l2 h]

/-- C7 amended witness: concrete swapped lists, one with a malformed
entry for the all-subnets part and an all-parsing one for the any-subnet
part. -/
theorem claimC7_order_independence_amended_witness :
    addr_in_all_subnets (.V4 5) ["0.0.0.0/0", "zzz"] =
        addr_in_all_subnets (.V4 5) ["zzz", "0.0.0.0/0"]
    ∧ addr_in_any_subnet (.V4 5) ["10.0.0.0/8", "0.0.0.0/0"] =
        addr_in_any_subnet (.V4 5) ["0.0.0.0/0", "10.0.0.0/8"] := by
  refine ⟨claimC7_order_independence_amended.1 (.V4 5) _ _
      (List.Perm.swap "zzz" "0.0.0.0/0" []),
    claimC7_order_independence_amended.2 (.V4 5) _ _
      (List.Perm.swap "0.0.0.0/0" "10.0.0.0/8" []) ?_⟩
  intro s hs e he
  rcases List.mem_cons.mp hs with rfl | hs2
  · rw [show parseNetAddr "10.0.0.0/8" = .ok (.V4 167772160 8) from by decide] at he
    cases he
  · rw [List.mem_singleton] at hs2
    subst hs2
    rw [show parseNetAddr "0.0.0.0/0" = .ok (.V4 0 0) from by decide] at he
    cases he

theorem parseNetAddr_err_text (s : String) (e : ParseError)
    (h : parseNetAddr s = .error e) : e.text = s := by
  unfold parseNetAddr at h
  split at h
  · split at h
    · simp at h
    · simp at h
    · cases h
      rfl
  · split at h
    · split at h
      · simp at h
      · cases h
        rfl
    · split at h
      · simp at h
      · cases h
        rfl
    · cases h
      rfl
  · cases h
    rfl

/-- C8: `10.0.0.0/33` and `not-an-ip/24` fail to parse while
`192.168.182.0/24` succeeds, and every parse failure carries the
original malformed text as its offending text. -/
theorem claimC8_parse_failures :
    parseNetAddr "10.0.0.0/33" =
        .error ⟨"10.0.0.0/33", "prefix length out of range"⟩
    ∧ parseNetAddr "not-an-ip/24" =
        .error ⟨"not-an-ip/24", "invalid address or prefix"⟩
    ∧ parseNetAddr "192.168.182.0/24" = .ok (.V4 3232282112 24)
    ∧ (∀ (s : String) (e : ParseError), parseNetAddr s = .error e → e.text = s) :=
  ⟨by decide, by decide, by decide, parseNetAddr_err_text⟩

/-- C8 witness: the offending-text property evaluated at the concrete
malformed text `zzz`. -/
theorem claimC8_parse_failures_witness :
    ParseError.text ⟨"zzz", "invalid address literal"⟩ = "zzz" :=
  claimC8_parse_failures.2.2.2 "zzz" ⟨"zzz", "invalid address literal"⟩ (by decide)

